import Mathlib

/-!
AliRoot: volume-UID codec, Euler angles and trigger scalers.

A shallow embedding of `STEER/AliAlignObj.cxx`, `STEER/AliTriggerScalers.cxx` and
`PMD/AliPMDcell.cxx`.

* `Int_t` and the enumeration `ELayerID` are integers (`Int`); the conversion
  to `UShort_t` is reduction modulo `2^16`.
* `Double_t` is a type parameter `α` carrying the arithmetic the code uses;
  ROOT's `TMath` functions (an external library) are a parameter `TMathOps α`.
* `TString` values are `String`; the arrays of `fgVolPath` are a size and a
  partial map from indices to strings.
-/

namespace AliAlignObj

/-! ## Volume-UID codec -/

/-- The C++ conversion `UShort_t(x)` of a signed integer: reduction modulo `2^16`. -/
def UShort_t (x : Int) : Nat := (x % 65536).toNat

/-- `AliAlignObj::LayerToVolUID`:
`return ((UShort_t(layerId) << 11) | UShort_t(modId));`
The shift and the or are done on `int` (no overflow: the operand is below
`2^16`), and the result is converted to the return type `UShort_t`. -/
def LayerToVolUID (layerId modId : Int) : Nat :=
  ((UShort_t layerId <<< 11) ||| UShort_t modId) % 65536

/-- `AliAlignObj::VolUIDToLayer(UShort_t voluid)`:
`return ELayerID((voluid >> 11) & 0x1f);` -/
def VolUIDToLayer (voluid : Nat) : Int :=
  (((voluid >>> 11) &&& 0x1f : Nat) : Int)

/-- `AliAlignObj::VolUIDToLayer(UShort_t voluid, Int_t &modId)`:
`modId = voluid & 0x7ff; return VolUIDToLayer(voluid);`
The result is the pair (returned layer, value stored in `modId`). -/
def VolUIDToLayerModId (voluid : Nat) : Int × Int :=
  let modId : Int := ((voluid &&& 0x7ff : Nat) : Int)
  (VolUIDToLayer voluid, modId)

/-- The part of an alignment object the base class stores. -/
structure Obj where
  fVolPath : String
  fVolUID : Nat
deriving Repr, DecidableEq

/-- `AliAlignObj::SetVolUID(ELayerID detId, Int_t modId)`:
`fVolUID = LayerToVolUID(detId,modId);` -/
def SetVolUID (o : Obj) (detId modId : Int) : Obj :=
  { o with fVolUID := LayerToVolUID detId modId }

/-- `AliAlignObj::GetVolUID(ELayerID &layerId, Int_t &modId)`:
`layerId = VolUIDToLayer(fVolUID,modId);` The result is `(layerId, modId)`. -/
def GetVolUID (o : Obj) : Int × Int :=
  VolUIDToLayerModId o.fVolUID

/-- The C++ expression `x & mask` for an `Int_t` value `x` (two's complement)
and a non-negative constant `mask`; the result is non-negative. -/
def bitAnd (x : Int) (mask : Nat) : Nat := (Int.land x (mask : Int)).toNat

/-- The packing formula as the specification words it:
`pack(layer, module) = (layer & 0x1F) << 11 | (module & 0x7FF)`. -/
def packSpec (layer module : Int) : Nat :=
  (bitAnd layer 0x1F <<< 11) ||| bitAnd module 0x7FF

/-- The unpacking formula as the specification words it:
layer via `(uid >> 11) & 0x1F` and module via `uid & 0x7FF`. -/
def unpackSpec (uid : Nat) : Int × Int :=
  ((((uid >>> 11) &&& 0x1F : Nat) : Int), ((uid &&& 0x7FF : Nat) : Int))

/-! ## Euler angles -/

/-- ROOT's `TMath` constants and functions used by the angle conversions
(`TMath::DegToRad`, `TMath::RadToDeg`, `TMath::Sin`, `TMath::Cos`,
`TMath::ASin`, `TMath::ATan2`); ROOT is an external library, so they are a
parameter of the embedding. -/
structure TMathOps (α : Type) where
  DegToRad : α
  RadToDeg : α
  Sin : α → α
  Cos : α → α
  ASin : α → α
  ATan2 : α → α → α

section Generic

variable {α : Type} [Mul α] [Add α] [Neg α]

/-- `AliAlignObj::AnglesToMatrix(const Double_t *angles, Double_t *rot)`.
All nine entries of `rot` are written, so the result is the new array. -/
def AnglesToMatrix (tm : TMathOps α) (angles : Fin 3 → α) : Fin 9 → α :=
  let degrad := tm.DegToRad
  let sinpsi := tm.Sin (degrad * angles 0)
  let cospsi := tm.Cos (degrad * angles 0)
  let sinthe := tm.Sin (degrad * angles 1)
  let costhe := tm.Cos (degrad * angles 1)
  let sinphi := tm.Sin (degrad * angles 2)
  let cosphi := tm.Cos (degrad * angles 2)
  ![ costhe * cosphi,
     (-costhe) * sinphi,
     sinthe,
     sinpsi * sinthe * cosphi + cospsi * sinphi,
     (-sinpsi) * sinthe * sinphi + cospsi * cosphi,
     (-costhe) * sinpsi,
     (-cospsi) * sinthe * cosphi + sinpsi * sinphi,
     cospsi * sinthe * sinphi + sinpsi * cosphi,
     costhe * cospsi ]

variable [LT α] [DecidableRel ((· < ·) : α → α → Prop)] [OfScientific α]

/-- `AliAlignObj::MatrixToAngles(const Double_t *rot, Double_t *angles)`.
The result is the returned `Bool_t` and the content of `angles` after the call;
`angles` on the right is its content before the call. -/
def MatrixToAngles (tm : TMathOps α) (rot : Fin 9 → α) (angles : Fin 3 → α) :
    Bool × (Fin 3 → α) :=
  if decide (rot 0 < 1e-7) || decide (rot 8 < 1e-7) then (false, angles)
  else
    let raddeg := tm.RadToDeg
    let angles := Function.update angles 0 (raddeg * tm.ATan2 (-rot 5) (rot 8))
    let angles := Function.update angles 1 (raddeg * tm.ASin (rot 2))
    let angles := Function.update angles 2 (raddeg * tm.ATan2 (-rot 1) (rot 0))
    (true, angles)

end Generic

/-- Exact real arithmetic: the `TMath` functions as the real functions they
approximate. `TMath::ATan2(y, x)` is the argument of the point `(x, y)` in
`(-π, π]` (and `0`, `π/2`, `-π/2` on the line `x = 0`), `TMath::ASin` is the
arcsine clamped to `[-π/2, π/2]`. -/
noncomputable def realTMath : TMathOps ℝ where
  DegToRad := Real.pi / 180
  RadToDeg := 180 / Real.pi
  Sin := Real.sin
  Cos := Real.cos
  ASin := Real.arcsin
  ATan2 := fun y x => Complex.arg ⟨x, y⟩

/-- The row-major array `rot` read as a 3x3 matrix. -/
def toMatrix {α : Type} (rot : Fin 9 → α) : Matrix (Fin 3) (Fin 3) α :=
  !![rot 0, rot 1, rot 2; rot 3, rot 4, rot 5; rot 6, rot 7, rot 8]

/-- Elementary rotation about the x axis, given the cosine and the sine. -/
def Rx {α : Type} [Zero α] [One α] [Neg α] (c s : α) : Matrix (Fin 3) (Fin 3) α :=
  !![1, 0, 0; 0, c, -s; 0, s, c]

/-- Elementary rotation about the y axis, given the cosine and the sine. -/
def Ry {α : Type} [Zero α] [One α] [Neg α] (c s : α) : Matrix (Fin 3) (Fin 3) α :=
  !![c, 0, s; 0, 1, 0; -s, 0, c]

/-- Elementary rotation about the z axis, given the cosine and the sine. -/
def Rz {α : Type} [Zero α] [One α] [Neg α] (c s : α) : Matrix (Fin 3) (Fin 3) α :=
  !![c, -s, 0; s, c, 0; 0, 0, 1]

end AliAlignObj

/-! ## Trigger scalers -/

/-- The data members of `AliTriggerScalers`: the class index (`UChar_t`) and
the six counters (`UInt_t`). -/
structure AliTriggerScalers where
  fClassIndex : Nat
  fLOCB : Nat
  fLOCA : Nat
  fL1CB : Nat
  fL1CA : Nat
  fL2CB : Nat
  fL2CA : Nat
deriving Repr, DecidableEq

namespace AliTriggerScalers

/-- `AliTriggerScalers::Compare(const TObject* obj)`. -/
def Compare (self obj : AliTriggerScalers) : Int :=
  if self.fClassIndex < obj.fClassIndex then -1
  else if self.fClassIndex > obj.fClassIndex then 1
  else 0

end AliTriggerScalers

namespace AliAlignObj

/-! ## Volume-path lookup tables -/

/-- `AliAlignObj::fgLayerSize[kLastLayer - kFirstLayer]`; the initialiser has
nineteen entries. -/
def fgLayerSize : Fin 19 → Nat :=
  ![80, 160, 84, 176, 748, 950, 36, 36, 90, 90, 90, 90, 90, 90, 1, 1, 1, 7, 1]

/-- One array `const char *[size]` of `fgVolPath`: its allocated size and its
slots. A slot that was never written is `none`; a written slot holds the
characters of the `TString` at the time of the assignment (strings are values
here, the lifetime of the buffer behind `TString::Data()` is not modelled). -/
@[ext]
structure Lut where
  size : Nat
  slot : Nat → Option String

/-- The C++ expression `new const char *[n]`: `n` slots, none written yet. -/
def newLut (n : Nat) : Lut := ⟨n, fun _ => none⟩

/-- The assignment `fgVolPath[layer][modnum] = path.Data()` on the array of that
layer; `none` when `modnum` is outside the allocated array. -/
def writeEntry (lut : Lut) (modnum : Nat) (path : String) : Option Lut :=
  if modnum < lut.size then
    some ⟨lut.size, fun i => if i = modnum then some path else lut.slot i⟩
  else none

/-- The loop `for (Int_t c = 1; c <= n; c++) body` over a state `σ`; the body may
fail. -/
def forUpTo {σ : Type} (n : Nat) (body : Nat → σ → Option σ) (s : σ) : Option σ :=
  (List.range' 1 n).foldlM (fun st c => body c st) s

/-- A block of `InitVolPaths` with three nested loops (SPD layers). The state is
the array of the layer and `modnum`; `volpath += c` appends the decimal
representation of the `Int_t` counter. -/
def fill3 (str0 str1 str2 str3 : String) (n1 n2 n3 : Nat) (lut : Lut) : Option (Lut × Nat) :=
  forUpTo n1 (fun c1 st =>
    let volpath := str0 ++ toString c1 ++ str1
    forUpTo n2 (fun c2 st =>
      let volpath1 := volpath ++ toString c2 ++ str2
      forUpTo n3 (fun c3 st =>
        let volpath2 := volpath1 ++ toString c3 ++ str3
        (writeEntry st.1 st.2 volpath2).map (fun l => (l, st.2 + 1))) st) st) (lut, 0)

/-- A block of `InitVolPaths` with two nested loops (SDD and SSD layers). -/
def fill2 (str0 str1 str2 : String) (n1 n2 : Nat) (lut : Lut) : Option (Lut × Nat) :=
  forUpTo n1 (fun c1 st =>
    let volpath := str0 ++ toString c1 ++ str1
    forUpTo n2 (fun c2 st =>
      let volpath1 := volpath ++ toString c2 ++ str2
      (writeEntry st.1 st.2 volpath1).map (fun l => (l, st.2 + 1))) st) (lut, 0)

/-- The block "SPD layer1". -/
def initSPD1 : Lut → Option (Lut × Nat) :=
  fill3 "ALIC_1/ITSV_1/ITSD_1/IT12_1/I12B_" "/I10B_" "/I107_" "/I101_1/ITS1_1" 10 2 4

/-- The block "SPD layer2". -/
def initSPD2 : Lut → Option (Lut × Nat) :=
  fill3 "ALIC_1/ITSV_1/ITSD_1/IT12_1/I12B_" "/I20B_" "/I1D7_" "/I1D1_1/ITS2_1" 10 4 4

/-- The block "SDD layer1". -/
def initSDD1 : Lut → Option (Lut × Nat) :=
  fill2 "ALIC_1/ITSV_1/ITSD_1/IT34_1/I004_" "/I302_" "/ITS3_1" 14 6

/-- The block "SDD layer2". -/
def initSDD2 : Lut → Option (Lut × Nat) :=
  fill2 "ALIC_1/ITSV_1/ITSD_1/IT34_1/I005_" "/I402_" "/ITS4_1" 22 8

/-- The first block "SSD layer1" (it writes `kSSD1`). -/
def initSSD1 : Lut → Option (Lut × Nat) :=
  fill2 "ALIC_1/ITSV_1/ITSD_1/IT56_1/I565_" "/I562_" "/ITS5_1" 34 22

/-- The second block headed "SSD layer1" (it writes `kSSD2`). -/
def initSSD2 : Lut → Option (Lut × Nat) :=
  fill2 "ALIC_1/ITSV_1/ITSD_1/IT56_1/I569_" "/I566_" "/ITS6_1" 38 25

/-- The value of `fgVolPath` before the first call: nineteen null pointers. -/
def fgVolPathInitial : Fin 19 → Option Lut := fun _ => none

/-- `AliAlignObj::InitVolPaths()` on the static `fgVolPath` (a null pointer is
`none`). The enumeration `ELayerID` is declared in a header that is not part
of the sources; `kSPD1 - kFirstLayer`, ..., `kSSD2 - kFirstLayer` are taken as
0, ..., 5, the order of `fgLayerSize` and `fgLayerName`. The result is `none`
when a write falls outside its array. -/
def InitVolPaths (fgVolPath : Fin 19 → Option Lut) : Option (Fin 19 → Option Lut) :=
  if (fgVolPath 0).isSome then some fgVolPath
  else
    let fg : Fin 19 → Lut := fun iLayer => newLut (fgLayerSize iLayer)
    (initSPD1 (fg 0)).bind fun r0 =>
    (initSPD2 (fg 1)).bind fun r1 =>
    (initSDD1 (fg 2)).bind fun r2 =>
    (initSDD2 (fg 3)).bind fun r3 =>
    (initSSD1 (fg 4)).bind fun r4 =>
    (initSSD2 (fg 5)).bind fun r5 =>
    let fg := Function.update fg 0 r0.1
    let fg := Function.update fg 1 r1.1
    let fg := Function.update fg 2 r2.1
    let fg := Function.update fg 3 r3.1
    let fg := Function.update fg 4 r4.1
    let fg := Function.update fg 5 r5.1
    some (fun iLayer => some (fg iLayer))

/-- The default constructor `AliAlignObj::AliAlignObj()`: `fVolUID(0)`, then
`InitVolPaths()`. The result is the new object and the static tables. -/
def defaultCtor (fgVolPath : Fin 19 → Option Lut) : Option (Obj × (Fin 19 → Option Lut)) :=
  (InitVolPaths fgVolPath).map fun fg => (⟨"", 0⟩, fg)

/-- The path of SPD layer 1 for the loop counters `c1`, `c2`, `c3`. -/
def pathSPD1 (c1 c2 c3 : Nat) : String :=
  "ALIC_1/ITSV_1/ITSD_1/IT12_1/I12B_" ++ toString c1 ++ "/I10B_" ++ toString c2
    ++ "/I107_" ++ toString c3 ++ "/I101_1/ITS1_1"

/-- The path of SPD layer 2 for the loop counters `c1`, `c2`, `c3`. -/
def pathSPD2 (c1 c2 c3 : Nat) : String :=
  "ALIC_1/ITSV_1/ITSD_1/IT12_1/I12B_" ++ toString c1 ++ "/I20B_" ++ toString c2
    ++ "/I1D7_" ++ toString c3 ++ "/I1D1_1/ITS2_1"

/-- The path of SDD layer 1 for the loop counters `c1`, `c2`. -/
def pathSDD1 (c1 c2 : Nat) : String :=
  "ALIC_1/ITSV_1/ITSD_1/IT34_1/I004_" ++ toString c1 ++ "/I302_" ++ toString c2 ++ "/ITS3_1"

/-- The path of SDD layer 2 for the loop counters `c1`, `c2`. -/
def pathSDD2 (c1 c2 : Nat) : String :=
  "ALIC_1/ITSV_1/ITSD_1/IT34_1/I005_" ++ toString c1 ++ "/I402_" ++ toString c2 ++ "/ITS4_1"

/-- The path of SSD layer 1 for the loop counters `c1`, `c2`. -/
def pathSSD1 (c1 c2 : Nat) : String :=
  "ALIC_1/ITSV_1/ITSD_1/IT56_1/I565_" ++ toString c1 ++ "/I562_" ++ toString c2 ++ "/ITS5_1"

/-- The path of SSD layer 2 for the loop counters `c1`, `c2`. -/
def pathSSD2 (c1 c2 : Nat) : String :=
  "ALIC_1/ITSV_1/ITSD_1/IT56_1/I569_" ++ toString c1 ++ "/I566_" ++ toString c2 ++ "/ITS6_1"

/-- The table a block leaves behind when all its writes are in range: the
`k` slots from `m` on hold `F 0, ..., F (k - 1)`, the others are as before. -/
def writeBlock (lut : Lut) (m k : Nat) (F : Nat → String) : Lut :=
  ⟨lut.size, fun i => if m ≤ i ∧ i < m + k then some (F (i - m)) else lut.slot i⟩

end AliAlignObj

/-! ## Track points and the coordinate transform -/

namespace AliAlignObj

end AliAlignObj

/-! ## PMD cells -/

/-- The data members of `AliPMDcell`; `Float_t` is the type parameter `β`. -/
structure AliPMDcell (β : Type) where
  fTrNumber : Int
  fSMNumber : Int
  fXpos : Int
  fYpos : Int
  fEdep : β

namespace AliPMDcell

/-- The standard constructor `AliPMDcell::AliPMDcell()`. -/
def ctor0 {β : Type} [Zero β] : AliPMDcell β :=
  { fTrNumber := 0, fSMNumber := 0, fXpos := 0, fYpos := 0, fEdep := 0 }

/-- The constructor `AliPMDcell::AliPMDcell(trnumber, smnumber, xpos, ypos, edep)`. -/
def ctor5 {β : Type} (trnumber smnumber xpos ypos : Int) (edep : β) : AliPMDcell β :=
  { fTrNumber := trnumber, fSMNumber := smnumber, fXpos := xpos, fYpos := ypos, fEdep := edep }

/-- The copy constructor (for a source other than the object itself). -/
def copyCtor {β : Type} (source : AliPMDcell β) : AliPMDcell β :=
  { fTrNumber := source.fTrNumber, fSMNumber := source.fSMNumber, fXpos := source.fXpos,
    fYpos := source.fYpos, fEdep := source.fEdep }

/-- The assignment `AliPMDcell::operator=`: `self` after `self = source`. When
`source` is the object itself the early return leaves it as it is, which is the
same value. -/
def assign {β : Type} (_self source : AliPMDcell β) : AliPMDcell β :=
  { fTrNumber := source.fTrNumber, fSMNumber := source.fSMNumber, fXpos := source.fXpos,
    fYpos := source.fYpos, fEdep := source.fEdep }

/-- `AliPMDcell::GetTrackNumber`. -/
def GetTrackNumber {β : Type} (c : AliPMDcell β) : Int := c.fTrNumber

/-- `AliPMDcell::GetSMNumber`. -/
def GetSMNumber {β : Type} (c : AliPMDcell β) : Int := c.fSMNumber

/-- `AliPMDcell::GetX`. -/
def GetX {β : Type} (c : AliPMDcell β) : Int := c.fXpos

/-- `AliPMDcell::GetY`. -/
def GetY {β : Type} (c : AliPMDcell β) : Int := c.fYpos

/-- `AliPMDcell::GetEdep`. -/
def GetEdep {β : Type} (c : AliPMDcell β) : β := c.fEdep

end AliPMDcell

namespace AliAlignObj

theorem ldiff_mask (k n : Nat) : Nat.ldiff (2 ^ k - 1) n = 2 ^ k - (n % 2 ^ k + 1) := by
  apply Nat.eq_of_testBit_eq
  intro i
  rw [Nat.testBit_ldiff, Nat.testBit_two_pow_sub_one,
    Nat.testBit_two_pow_sub_succ (Nat.mod_lt _ (Nat.two_pow_pos k)), Nat.testBit_mod_two_pow]
  by_cases h : i < k <;> simp [h]

/-- Two's-complement `x & (2^k - 1)` is the remainder of `x` modulo `2^k`. -/
theorem land_mask (x : Int) (k : Nat) :
    Int.land x ((2 ^ k - 1 : Nat) : Int) = x % ((2 ^ k : Nat) : Int) := by
  cases x with
  | ofNat n =>
    show ((n &&& (2 ^ k - 1) : Nat) : Int) = _
    rw [Nat.and_pow_two_sub_one_eq_mod]
    rfl
  | negSucc n =>
    show ((Nat.ldiff (2 ^ k - 1) n : Nat) : Int) = _
    rw [ldiff_mask]
    have hp : 0 < 2 ^ k := Nat.two_pow_pos k
    have hlt := Nat.mod_lt n hp
    generalize 2 ^ k = p at *
    rw [Int.negSucc_emod _ (by exact_mod_cast hp), Nat.cast_sub (by omega)]
    push_cast
    omega

theorem bitAnd_0x1F (x : Int) : bitAnd x 0x1F = (x % 32).toNat := by
  unfold bitAnd
  have h := land_mask x 5
  norm_num at h
  norm_num
  rw [h]

theorem bitAnd_0x7FF (x : Int) : bitAnd x 0x7FF = (x % 2048).toNat := by
  unfold bitAnd
  have h := land_mask x 11
  norm_num at h
  norm_num
  rw [h]

theorem bitAnd_0xFFFF (x : Int) : bitAnd x 0xFFFF = (x % 65536).toNat := by
  unfold bitAnd
  have h := land_mask x 16
  norm_num at h
  norm_num
  rw [h]

theorem UShort_t_lt (x : Int) : UShort_t x < 65536 := by
  unfold UShort_t; omega

theorem UShort_t_lt_of_pack (layerId modId : Int) : LayerToVolUID layerId modId < 65536 := by
  unfold LayerToVolUID
  omega

theorem UShort_t_ofNat (a : Nat) (h : a < 65536) : UShort_t (a : Int) = a := by
  unfold UShort_t; omega

theorem pack_in_range (a b : Nat) (hb : b < 2048) :
    ((a <<< 11) ||| b) = 2048 * a + b := by
  have h := Nat.mul_add_lt_is_or (i := 11) (b := b) (by norm_num; exact hb) a
  rw [Nat.shiftLeft_eq, Nat.mul_comm]
  norm_num at h ⊢
  exact h.symm

theorem LayerToVolUID_in_range (a b : Nat) (ha : a < 32) (hb : b < 2048) :
    LayerToVolUID (a : Int) (b : Int) = 2048 * a + b := by
  unfold LayerToVolUID
  rw [UShort_t_ofNat a (by omega), UShort_t_ofNat b (by omega), pack_in_range a b hb]
  omega

theorem and_0x1f (x : Nat) : x &&& 0x1f = x % 32 :=
  Nat.and_pow_two_sub_one_eq_mod x 5

theorem and_0x7ff (x : Nat) : x &&& 0x7ff = x % 2048 :=
  Nat.and_pow_two_sub_one_eq_mod x 11

theorem VolUIDToLayer_eq (uid : Nat) : VolUIDToLayer uid = ((uid / 2048 % 32 : Nat) : Int) := by
  unfold VolUIDToLayer
  rw [and_0x1f, Nat.shiftRight_eq_div_pow]

theorem VolUIDToLayerModId_eq (uid : Nat) :
    VolUIDToLayerModId uid = (((uid / 2048 % 32 : Nat) : Int), ((uid % 2048 : Nat) : Int)) := by
  unfold VolUIDToLayerModId
  rw [VolUIDToLayer_eq, and_0x7ff]

/-- C1: for every layer in [0,31] and module in [0,2047], decoding the packed
identifier returns the layer and stores the module in `modId`. -/
theorem C1_pack_unpack_roundtrip (layer module : Int)
    (hl0 : 0 ≤ layer) (hl : layer ≤ 31) (hm0 : 0 ≤ module) (hm : module ≤ 2047) :
    VolUIDToLayerModId (LayerToVolUID layer module) = (layer, module) := by
  lift layer to ℕ using hl0
  lift module to ℕ using hm0
  rw [LayerToVolUID_in_range layer module (by omega) (by omega), VolUIDToLayerModId_eq]
  have h1 : (2048 * layer + module) / 2048 % 32 = layer := by omega
  have h2 : (2048 * layer + module) % 2048 = module := by omega
  rw [h1, h2]

theorem C1_pack_unpack_roundtrip_witness :
    VolUIDToLayerModId (LayerToVolUID 5 1234) = (5, 1234) :=
  C1_pack_unpack_roundtrip 5 1234 (by decide) (by decide) (by decide) (by decide)

theorem testBit_UShort_high (M : Nat) (hM : M < 65536) (i : Nat) (hi : 16 ≤ i) :
    M.testBit i = false := by
  apply Nat.testBit_lt_two_pow
  calc M < 2 ^ 16 := by norm_num; exact hM
    _ ≤ 2 ^ i := Nat.pow_le_pow_right (by norm_num) hi

/-- The conversion of the packed `int` to `UShort_t` keeps the low five bits of
the layer and all sixteen bits of the module operand. -/
theorem pack_trunc (L M : Nat) (hM : M < 65536) :
    ((L <<< 11) ||| M) % 65536 = ((L % 32) <<< 11) ||| M := by
  apply Nat.eq_of_testBit_eq
  intro i
  have h16 : (65536 : Nat) = 2 ^ 16 := by norm_num
  have h32 : (32 : Nat) = 2 ^ 5 := by norm_num
  rw [h16, h32, Nat.testBit_mod_two_pow, Nat.testBit_or, Nat.testBit_or,
    Nat.testBit_shiftLeft, Nat.testBit_shiftLeft, Nat.testBit_mod_two_pow]
  by_cases hi : i < 16
  · have h5 : i - 11 < 5 := by omega
    simp [hi, h5]
  · have hMi := testBit_UShort_high M hM i (by omega)
    have h5 : ¬ (i - 11 < 5) := by omega
    simp [hi, h5, hMi]

theorem unpack_layer (a M : Nat) (ha : a < 32) (hM : M < 65536) :
    (((a <<< 11) ||| M) >>> 11) &&& 0x1f = a ||| (M >>> 11) := by
  apply Nat.eq_of_testBit_eq
  intro i
  have h31 : (0x1f : Nat) = 2 ^ 5 - 1 := by norm_num
  rw [h31, Nat.testBit_and, Nat.testBit_two_pow_sub_one, Nat.testBit_shiftRight,
    Nat.testBit_or, Nat.testBit_or, Nat.testBit_shiftLeft, Nat.testBit_shiftRight]
  by_cases hi : i < 5
  · simp [hi]
  · have hMi := testBit_UShort_high M hM (11 + i) (by omega)
    have hai : a.testBit i = false := by
      apply Nat.testBit_lt_two_pow
      calc a < 2 ^ 5 := by norm_num; exact ha
        _ ≤ 2 ^ i := Nat.pow_le_pow_right (by norm_num) (by omega)
    simp [hi, hMi, hai]

theorem unpack_mod (a M : Nat) : ((a <<< 11) ||| M) &&& 0x7ff = M % 2048 := by
  apply Nat.eq_of_testBit_eq
  intro i
  have h1 : (0x7ff : Nat) = 2 ^ 11 - 1 := by norm_num
  have h2 : (2048 : Nat) = 2 ^ 11 := by norm_num
  rw [h1, h2, Nat.testBit_and, Nat.testBit_two_pow_sub_one, Nat.testBit_or,
    Nat.testBit_shiftLeft, Nat.testBit_mod_two_pow]
  by_cases hi : i < 11
  · have : ¬ (i ≥ 11) := by omega
    simp [hi, this]
  · simp [hi]

/-- What `LayerToVolUID` computes for arbitrary arguments: the layer is cut to
five bits by the final conversion, the module only to sixteen bits. -/
theorem LayerToVolUID_general (layerId modId : Int) :
    LayerToVolUID layerId modId
      = (((layerId % 32).toNat) <<< 11) ||| (modId % 65536).toNat := by
  unfold LayerToVolUID
  rw [pack_trunc _ _ (UShort_t_lt modId)]
  have h : UShort_t layerId % 32 = (layerId % 32).toNat := by
    unfold UShort_t; omega
  rw [h]
  rfl

/-- C2, refuted as stated: for layer 0 and module 2048 the code returns 2048
(bit 11 of the module lands in the layer field), the formula of the claim 0. -/
theorem C2_counterexample :
    LayerToVolUID 0 2048 = 2048 ∧ packSpec 0 2048 = 0 ∧
      LayerToVolUID 0 2048 ≠ packSpec 0 2048 := by
  refine ⟨?_, ?_, ?_⟩ <;> decide

/-- C2, amended: for every layer and every integer module, `LayerToVolUID`
equals `((layer & 0x1F) << 11) | (module & 0xFFFF)`; the module is cut to
sixteen bits, not eleven. For a module in [0,2047] this is the formula
`((layer & 0x1F) << 11) | (module & 0x7FF)`. -/
theorem C2_LayerToVolUID_formula (layer module : Int) :
    LayerToVolUID layer module = ((bitAnd layer 0x1F <<< 11) ||| bitAnd module 0xFFFF) ∧
      (0 ≤ module → module ≤ 2047 → LayerToVolUID layer module = packSpec layer module) := by
  have hgen : LayerToVolUID layer module
      = ((bitAnd layer 0x1F <<< 11) ||| bitAnd module 0xFFFF) := by
    rw [LayerToVolUID_general, bitAnd_0x1F, bitAnd_0xFFFF]
  refine ⟨hgen, ?_⟩
  intro h0 h1
  rw [hgen]
  unfold packSpec
  rw [bitAnd_0xFFFF, bitAnd_0x7FF]
  have h : (module % 65536).toNat = (module % 2048).toNat := by omega
  rw [h]

theorem C2_LayerToVolUID_formula_witness :
    LayerToVolUID 37 2047 = ((bitAnd 37 0x1F <<< 11) ||| bitAnd 2047 0xFFFF) ∧
      LayerToVolUID 37 2047 = packSpec 37 2047 :=
  ⟨(C2_LayerToVolUID_formula 37 2047).1,
    (C2_LayerToVolUID_formula 37 2047).2 (by decide) (by decide)⟩

/-- C3, refuted as stated: layer 0 with module 2048 decodes to layer 1, module 0;
the layer is not preserved. -/
theorem C3_counterexample :
    VolUIDToLayerModId (LayerToVolUID 0 2048) = (1, 0) ∧
      VolUIDToLayerModId (LayerToVolUID 0 2048) ≠ (0, ((bitAnd 2048 0x7FF : Nat) : Int)) := by
  constructor <;> decide

/-- C3, amended: for every layer in [0,31] and every integer module, the module
decoded from `LayerToVolUID(layer, module)` is `module & 0x7FF` and the decoded
layer is `layer | ((module & 0xFFFF) >> 11)`: bits 11..15 of the module are
or-ed into the layer. The decoded layer is `layer` when the module is in
[0,2047]. -/
theorem C3_out_of_range_decoding (layer module : Int) (hl0 : 0 ≤ layer) (hl : layer ≤ 31) :
    VolUIDToLayerModId (LayerToVolUID layer module)
        = (((layer.toNat ||| (bitAnd module 0xFFFF >>> 11) : Nat) : Int),
            ((bitAnd module 0x7FF : Nat) : Int)) ∧
      (0 ≤ module → module ≤ 2047 →
        (VolUIDToLayerModId (LayerToVolUID layer module)).1 = layer) := by
  have hM : (module % 65536).toNat < 65536 := by omega
  have hL : (layer % 32).toNat = layer.toNat := by omega
  have hLlt : layer.toNat < 32 := by omega
  have hgen : VolUIDToLayerModId (LayerToVolUID layer module)
        = (((layer.toNat ||| (bitAnd module 0xFFFF >>> 11) : Nat) : Int),
            ((bitAnd module 0x7FF : Nat) : Int)) := by
    rw [LayerToVolUID_general, hL, bitAnd_0xFFFF, bitAnd_0x7FF]
    unfold VolUIDToLayerModId VolUIDToLayer
    rw [unpack_layer _ _ hLlt hM, unpack_mod]
    have h : (module % 65536).toNat % 2048 = (module % 2048).toNat := by omega
    rw [h]
  refine ⟨hgen, ?_⟩
  intro h0 h1
  rw [hgen, bitAnd_0xFFFF]
  show ((layer.toNat ||| ((module % 65536).toNat >>> 11) : Nat) : Int) = layer
  have hz : (module % 65536).toNat >>> 11 = 0 := by
    rw [Nat.shiftRight_eq_div_pow]
    norm_num
    omega
  rw [hz, Nat.or_zero]
  omega

theorem C3_out_of_range_decoding_witness :
    VolUIDToLayerModId (LayerToVolUID 3 (-1))
        = (((Int.toNat 3 ||| (bitAnd (-1) 0xFFFF >>> 11) : Nat) : Int),
            ((bitAnd (-1) 0x7FF : Nat) : Int)) ∧
      (VolUIDToLayerModId (LayerToVolUID 7 100)).1 = 7 :=
  ⟨(C3_out_of_range_decoding 3 (-1) (by decide) (by decide)).1,
    (C3_out_of_range_decoding 7 100 (by decide) (by decide)).2 (by decide) (by decide)⟩

/-- C4: whatever `SetVolUID` was last called with, `GetVolUID` yields a layer id
in [0,31] and a module id in [0,2047]. -/
theorem C4_GetVolUID_in_range (o : Obj) (detId modId : Int) :
    0 ≤ (GetVolUID (SetVolUID o detId modId)).1 ∧
      (GetVolUID (SetVolUID o detId modId)).1 ≤ 31 ∧
      0 ≤ (GetVolUID (SetVolUID o detId modId)).2 ∧
      (GetVolUID (SetVolUID o detId modId)).2 ≤ 2047 := by
  unfold GetVolUID
  rw [VolUIDToLayerModId_eq]
  dsimp only
  omega

/-- C5: for every 16-bit uid the two-argument `VolUIDToLayer` returns the layer
`(uid >> 11) & 0x1F` and stores `uid & 0x7FF` in `modId`, and the one-argument
overload returns the same layer. In arithmetic terms the layer is `uid / 2048`
and the module `uid % 2048`. -/
theorem C5_VolUIDToLayer_formula (uid : Nat) (h : uid < 65536) :
    VolUIDToLayerModId uid = unpackSpec uid ∧
      VolUIDToLayer uid = (VolUIDToLayerModId uid).1 ∧
      VolUIDToLayerModId uid = (((uid / 2048 : Nat) : Int), ((uid % 2048 : Nat) : Int)) := by
  refine ⟨rfl, rfl, ?_⟩
  rw [VolUIDToLayerModId_eq]
  have h1 : uid / 2048 % 32 = uid / 2048 := by omega
  rw [h1]

theorem C5_VolUIDToLayer_formula_witness :
    VolUIDToLayerModId 43210 = unpackSpec 43210 ∧
      VolUIDToLayer 43210 = (VolUIDToLayerModId 43210).1 ∧
      VolUIDToLayerModId 43210
        = ((((43210 : Nat) / 2048 : Nat) : Int), (((43210 : Nat) % 2048 : Nat) : Int)) :=
  C5_VolUIDToLayer_formula 43210 (by decide)

/-- C6: `MatrixToAngles` returns false exactly when `rot[0]` or `rot[8]` is
below the threshold `1e-7`, and true for every other matrix; this holds for any
number type and any comparison, whatever the `TMath` functions are. -/
theorem C6_MatrixToAngles_fails_iff {α : Type} [Mul α] [Neg α] [LT α]
    [DecidableRel ((· < ·) : α → α → Prop)] [OfScientific α]
    (tm : TMathOps α) (rot : Fin 9 → α) (angles : Fin 3 → α) :
    ((MatrixToAngles tm rot angles).1 = false ↔ (rot 0 < 1e-7 ∨ rot 8 < 1e-7)) ∧
      ((MatrixToAngles tm rot angles).1 = true ↔ ¬ (rot 0 < 1e-7 ∨ rot 8 < 1e-7)) := by
  unfold MatrixToAngles
  by_cases h0 : rot 0 < 1e-7
  · simp [h0]
  · by_cases h8 : rot 8 < 1e-7
    · simp [h8]
    · simp [h0, h8]

section Entries

variable {α : Type} [Mul α] [Add α] [Neg α] (tm : TMathOps α) (angles : Fin 3 → α)

theorem AnglesToMatrix_0 : AnglesToMatrix tm angles 0
    = tm.Cos (tm.DegToRad * angles 1) * tm.Cos (tm.DegToRad * angles 2) := rfl

theorem AnglesToMatrix_1 : AnglesToMatrix tm angles 1
    = (-tm.Cos (tm.DegToRad * angles 1)) * tm.Sin (tm.DegToRad * angles 2) := rfl

theorem AnglesToMatrix_2 : AnglesToMatrix tm angles 2
    = tm.Sin (tm.DegToRad * angles 1) := rfl

theorem AnglesToMatrix_3 : AnglesToMatrix tm angles 3
    = tm.Sin (tm.DegToRad * angles 0) * tm.Sin (tm.DegToRad * angles 1)
        * tm.Cos (tm.DegToRad * angles 2)
      + tm.Cos (tm.DegToRad * angles 0) * tm.Sin (tm.DegToRad * angles 2) := rfl

theorem AnglesToMatrix_4 : AnglesToMatrix tm angles 4
    = (-tm.Sin (tm.DegToRad * angles 0)) * tm.Sin (tm.DegToRad * angles 1)
        * tm.Sin (tm.DegToRad * angles 2)
      + tm.Cos (tm.DegToRad * angles 0) * tm.Cos (tm.DegToRad * angles 2) := rfl

theorem AnglesToMatrix_5 : AnglesToMatrix tm angles 5
    = (-tm.Cos (tm.DegToRad * angles 1)) * tm.Sin (tm.DegToRad * angles 0) := rfl

theorem AnglesToMatrix_6 : AnglesToMatrix tm angles 6
    = (-tm.Cos (tm.DegToRad * angles 0)) * tm.Sin (tm.DegToRad * angles 1)
        * tm.Cos (tm.DegToRad * angles 2)
      + tm.Sin (tm.DegToRad * angles 0) * tm.Sin (tm.DegToRad * angles 2) := rfl

theorem AnglesToMatrix_7 : AnglesToMatrix tm angles 7
    = tm.Cos (tm.DegToRad * angles 0) * tm.Sin (tm.DegToRad * angles 1)
        * tm.Sin (tm.DegToRad * angles 2)
      + tm.Sin (tm.DegToRad * angles 0) * tm.Cos (tm.DegToRad * angles 2) := rfl

theorem AnglesToMatrix_8 : AnglesToMatrix tm angles 8
    = tm.Cos (tm.DegToRad * angles 1) * tm.Cos (tm.DegToRad * angles 0) := rfl

end Entries

/-- C8: for every triple of angles the row-major output of `AnglesToMatrix` is
the matrix product `Rx(psi) * Ry(theta) * Rz(phi)` of the elementary rotations,
over any commutative ring and hence over exact real arithmetic. -/
theorem C8_AnglesToMatrix_product {α : Type} [CommRing α]
    (tm : TMathOps α) (angles : Fin 3 → α) :
    toMatrix (AnglesToMatrix tm angles)
      = Rx (tm.Cos (tm.DegToRad * angles 0)) (tm.Sin (tm.DegToRad * angles 0))
        * Ry (tm.Cos (tm.DegToRad * angles 1)) (tm.Sin (tm.DegToRad * angles 1))
        * Rz (tm.Cos (tm.DegToRad * angles 2)) (tm.Sin (tm.DegToRad * angles 2)) := by
  ext i j
  fin_cases i <;> fin_cases j <;>
    simp [toMatrix, Rx, Ry, Rz, Matrix.mul_apply, Fin.sum_univ_three,
      AnglesToMatrix_0, AnglesToMatrix_1, AnglesToMatrix_2, AnglesToMatrix_3,
      AnglesToMatrix_4, AnglesToMatrix_5, AnglesToMatrix_6, AnglesToMatrix_7,
      AnglesToMatrix_8] <;>
    ring

/-- The argument of the point with polar coordinates `(r, t)`, `r > 0` and `t` in `(-π, π]`. -/
theorem arg_polar (r t : ℝ) (hr : 0 < r) (h1 : -Real.pi < t) (h2 : t ≤ Real.pi) :
    Complex.arg ⟨r * Real.cos t, r * Real.sin t⟩ = t := by
  have h := Complex.arg_mul_cos_add_sin_mul_I hr (show t ∈ Set.Ioc (-Real.pi) Real.pi from ⟨h1, h2⟩)
  have e : (⟨r * Real.cos t, r * Real.sin t⟩ : ℂ)
      = (r : ℂ) * (Complex.cos t + Complex.sin t * Complex.I) := by
    apply Complex.ext
    · simp [Complex.cos_ofReal_re, Complex.sin_ofReal_re, Complex.cos_ofReal_im,
        Complex.sin_ofReal_im]
    · simp [Complex.cos_ofReal_re, Complex.sin_ofReal_re, Complex.cos_ofReal_im,
        Complex.sin_ofReal_im]
  rw [e, h]

theorem raddeg_degrad (x : ℝ) : 180 / Real.pi * (Real.pi / 180 * x) = x := by
  have hpi : Real.pi ≠ 0 := Real.pi_ne_zero
  field_simp
  ring

theorem realTMath_RadToDeg : realTMath.RadToDeg = 180 / Real.pi := rfl

theorem realTMath_ATan2 (y x : ℝ) : realTMath.ATan2 y x = Complex.arg ⟨x, y⟩ := rfl

theorem realTMath_ASin (x : ℝ) : realTMath.ASin x = Real.arcsin x := rfl

/-- C7, refuted as stated: the angles (360, 0, 0) give the identity matrix, which
is not at the degeneracy, and `MatrixToAngles` returns (0, 0, 0) for it. -/
theorem C7_counterexample :
    ¬ (AnglesToMatrix realTMath ![360, 0, 0] 0 < 1e-7) ∧
      ¬ (AnglesToMatrix realTMath ![360, 0, 0] 8 < 1e-7) ∧
      MatrixToAngles realTMath (AnglesToMatrix realTMath ![360, 0, 0]) ![0, 0, 0]
        = (true, ![0, 0, 0]) ∧
      MatrixToAngles realTMath (AnglesToMatrix realTMath ![360, 0, 0]) ![0, 0, 0]
        ≠ (true, ![360, 0, 0]) := by
  have h360 : Real.pi / 180 * 360 = 2 * Real.pi := by ring
  have r0 : AnglesToMatrix realTMath ![360, 0, 0] 0 = 1 := by
    simp [AnglesToMatrix_0, realTMath]
  have r8 : AnglesToMatrix realTMath ![360, 0, 0] 8 = 1 := by
    simp [AnglesToMatrix_8, realTMath, h360]
  have r1 : AnglesToMatrix realTMath ![360, 0, 0] 1 = 0 := by
    simp [AnglesToMatrix_1, realTMath]
  have r2 : AnglesToMatrix realTMath ![360, 0, 0] 2 = 0 := by
    simp [AnglesToMatrix_2, realTMath]
  have r5 : AnglesToMatrix realTMath ![360, 0, 0] 5 = 0 := by
    simp [AnglesToMatrix_5, realTMath, h360]
  have harg : Complex.arg ⟨1, 0⟩ = 0 := by
    have : (⟨1, 0⟩ : ℂ) = 1 := by apply Complex.ext <;> simp
    rw [this, Complex.arg_one]
  have hres : MatrixToAngles realTMath (AnglesToMatrix realTMath ![360, 0, 0]) ![0, 0, 0]
        = (true, ![0, 0, 0]) := by
    unfold MatrixToAngles
    rw [r0, r8, r1, r2, r5]
    have hg : ¬ ((1 : ℝ) < 1e-7) := by norm_num
    simp only [hg, decide_False, Bool.or_self, Bool.false_eq_true, if_false]
    refine Prod.ext rfl ?_
    funext i
    fin_cases i <;>
      simp [realTMath_RadToDeg, realTMath_ATan2, realTMath_ASin, harg]
  refine ⟨by rw [r0]; norm_num, by rw [r8]; norm_num, hres, ?_⟩
  rw [hres]
  intro h
  have h2 := congrFun (congrArg Prod.snd h) 0
  norm_num at h2

/-- C7, amended: over exact real arithmetic, for every triple of angles in degrees
with psi and phi in (-180, 180] and theta in [-90, 90] whose matrix is not at the
degeneracy, `MatrixToAngles` succeeds on the matrix of `AnglesToMatrix` and
returns the original angles. -/
theorem C7_angle_matrix_angle_roundtrip (angles out : Fin 3 → ℝ)
    (hpsi : -180 < angles 0 ∧ angles 0 ≤ 180)
    (hthe : -90 ≤ angles 1 ∧ angles 1 ≤ 90)
    (hphi : -180 < angles 2 ∧ angles 2 ≤ 180)
    (h0 : ¬ (AnglesToMatrix realTMath angles 0 < 1e-7))
    (h8 : ¬ (AnglesToMatrix realTMath angles 8 < 1e-7)) :
    MatrixToAngles realTMath (AnglesToMatrix realTMath angles) out = (true, angles) := by
  have hpi := Real.pi_pos
  have hc : 0 ≤ Real.cos (Real.pi / 180 * angles 1) := by
    apply Real.cos_nonneg_of_neg_pi_div_two_le_of_le
    · nlinarith [hthe.1]
    · nlinarith [hthe.2]
  have hr0 : (0 : ℝ) < Real.cos (Real.pi / 180 * angles 1) * Real.cos (Real.pi / 180 * angles 2) := by
    have h := h0
    rw [AnglesToMatrix_0] at h
    simp only [realTMath] at h
    have : (0 : ℝ) < 1e-7 := by norm_num
    linarith [not_lt.1 h]
  have hcpos : 0 < Real.cos (Real.pi / 180 * angles 1) := by
    rcases hc.lt_or_eq with h | h
    · exact h
    · rw [← h, zero_mul] at hr0
      exact absurd hr0 (lt_irrefl 0)
  have e0 : Complex.arg ⟨AnglesToMatrix realTMath angles 8, -AnglesToMatrix realTMath angles 5⟩
      = Real.pi / 180 * angles 0 := by
    rw [AnglesToMatrix_8, AnglesToMatrix_5]
    simp only [realTMath, neg_mul, neg_neg]
    apply arg_polar _ _ hcpos
    · nlinarith [hpsi.1]
    · nlinarith [hpsi.2]
  have e2 : Complex.arg ⟨AnglesToMatrix realTMath angles 0, -AnglesToMatrix realTMath angles 1⟩
      = Real.pi / 180 * angles 2 := by
    rw [AnglesToMatrix_0, AnglesToMatrix_1]
    simp only [realTMath, neg_mul, neg_neg]
    apply arg_polar _ _ hcpos
    · nlinarith [hphi.1]
    · nlinarith [hphi.2]
  have e1 : Real.arcsin (AnglesToMatrix realTMath angles 2) = Real.pi / 180 * angles 1 := by
    rw [AnglesToMatrix_2]
    simp only [realTMath]
    apply Real.arcsin_sin
    · nlinarith [hthe.1]
    · nlinarith [hthe.2]
  unfold MatrixToAngles
  simp only [h0, h8, decide_False, Bool.or_self, Bool.false_eq_true, if_false]
  refine Prod.ext rfl ?_
  funext i
  fin_cases i
  · simp [realTMath_RadToDeg, realTMath_ATan2, e0, raddeg_degrad]
  · simp [realTMath_RadToDeg, realTMath_ASin, e1, raddeg_degrad]
  · simp [realTMath_RadToDeg, realTMath_ATan2, e2, raddeg_degrad]

theorem C7_angle_matrix_angle_roundtrip_witness :
    MatrixToAngles realTMath (AnglesToMatrix realTMath ![60, 0, -60]) ![0, 0, 0]
      = (true, ![60, 0, -60]) := by
  have ha : Real.pi / 180 * 60 = Real.pi / 3 := by ring
  have hb : Real.pi / 180 * (-60) = -(Real.pi / 3) := by ring
  have r0 : AnglesToMatrix realTMath ![60, 0, -60] 0 = 1 / 2 := by
    rw [AnglesToMatrix_0]
    simp only [realTMath, Matrix.cons_val_one, Matrix.head_cons, Matrix.cons_val_two,
      Matrix.tail_cons, mul_zero, Real.cos_zero, one_mul, hb, Real.cos_neg,
      Real.cos_pi_div_three]
  have r8 : AnglesToMatrix realTMath ![60, 0, -60] 8 = 1 / 2 := by
    rw [AnglesToMatrix_8]
    simp only [realTMath, Matrix.cons_val_one, Matrix.head_cons, Matrix.cons_val_zero,
      mul_zero, Real.cos_zero, one_mul, ha, Real.cos_pi_div_three]
  exact C7_angle_matrix_angle_roundtrip ![60, 0, -60] ![0, 0, 0]
    (by simp; norm_num) (by simp) (by simp; norm_num)
    (by rw [r0]; norm_num) (by rw [r8]; norm_num)

end AliAlignObj

namespace AliTriggerScalers

theorem Compare_le_zero_iff (a b : AliTriggerScalers) :
    Compare a b ≤ 0 ↔ a.fClassIndex ≤ b.fClassIndex := by
  unfold Compare
  split_ifs <;> constructor <;> intro h <;> omega

/-- C9: `a.Compare(b)` is -1 when the class index of `a` is smaller, +1 when it
is larger and 0 when the class indices are equal, whatever the counters are. -/
theorem C9_Compare_by_class_index (a b : AliTriggerScalers) :
    (a.fClassIndex < b.fClassIndex → Compare a b = -1) ∧
      (a.fClassIndex > b.fClassIndex → Compare a b = 1) ∧
      (a.fClassIndex = b.fClassIndex → Compare a b = 0) := by
  unfold Compare
  refine ⟨?_, ?_, ?_⟩ <;> intro h <;> split_ifs <;> first | rfl | omega

theorem C9_Compare_by_class_index_witness :
    Compare ⟨2, 1, 2, 3, 4, 5, 6⟩ ⟨7, 0, 0, 0, 0, 0, 0⟩ = -1 ∧
      Compare ⟨7, 1, 2, 3, 4, 5, 6⟩ ⟨2, 9, 9, 9, 9, 9, 9⟩ = 1 ∧
      Compare ⟨4, 1, 2, 3, 4, 5, 6⟩ ⟨4, 6, 5, 4, 3, 2, 1⟩ = 0 :=
  ⟨(C9_Compare_by_class_index ⟨2, 1, 2, 3, 4, 5, 6⟩ ⟨7, 0, 0, 0, 0, 0, 0⟩).1 (by decide),
    (C9_Compare_by_class_index ⟨7, 1, 2, 3, 4, 5, 6⟩ ⟨2, 9, 9, 9, 9, 9, 9⟩).2.1 (by decide),
    (C9_Compare_by_class_index ⟨4, 1, 2, 3, 4, 5, 6⟩ ⟨4, 6, 5, 4, 3, 2, 1⟩).2.2 (by decide)⟩

/-- C10: `Compare` is antisymmetric and transitive; every arrangement of a list
in which each adjacent pair satisfies `x.Compare(y) <= 0` has non-decreasing
class indices across the whole list, and every list has such an arrangement
(a permutation of it). -/
theorem C10_sorted_by_Compare (l : List AliTriggerScalers) :
    (∀ a b : AliTriggerScalers, Compare a b = - Compare b a) ∧
      (∀ a b c : AliTriggerScalers, Compare a b ≤ 0 → Compare b c ≤ 0 → Compare a c ≤ 0) ∧
      (List.Chain' (fun x y => Compare x y ≤ 0) l →
        List.Pairwise (fun x y => x.fClassIndex ≤ y.fClassIndex) l) ∧
      (∃ l' : List AliTriggerScalers, l'.Perm l ∧
        List.Chain' (fun x y => Compare x y ≤ 0) l') := by
  haveI hT : IsTrans AliTriggerScalers (fun x y => x.fClassIndex ≤ y.fClassIndex) :=
    ⟨fun _ _ _ h1 h2 => Nat.le_trans h1 h2⟩
  haveI hTot : IsTotal AliTriggerScalers (fun x y => x.fClassIndex ≤ y.fClassIndex) :=
    ⟨fun a b => Nat.le_total a.fClassIndex b.fClassIndex⟩
  refine ⟨?_, ?_, ?_, ?_⟩
  · intro a b
    unfold Compare
    split_ifs <;> omega
  · intro a b c h1 h2
    rw [Compare_le_zero_iff] at *
    omega
  · intro h
    have h2 : List.Chain' (fun x y : AliTriggerScalers => x.fClassIndex ≤ y.fClassIndex) l :=
      h.imp (fun {a b} hab => (Compare_le_zero_iff a b).1 hab)
    exact List.chain'_iff_pairwise.1 h2
  · refine ⟨List.insertionSort (fun x y => x.fClassIndex ≤ y.fClassIndex) l,
      List.perm_insertionSort _ l, ?_⟩
    have hs := List.sorted_insertionSort (fun x y : AliTriggerScalers =>
      x.fClassIndex ≤ y.fClassIndex) l
    have hc := List.chain'_iff_pairwise.2 hs
    exact hc.imp (fun {a b} hab => (Compare_le_zero_iff a b).2 hab)

theorem C10_sorted_by_Compare_witness :
    List.Pairwise (fun x y : AliTriggerScalers => x.fClassIndex ≤ y.fClassIndex)
      [⟨1, 5, 0, 0, 0, 0, 0⟩, ⟨3, 4, 0, 0, 0, 0, 0⟩, ⟨3, 1, 0, 0, 0, 0, 0⟩, ⟨9, 0, 0, 0, 0, 0, 0⟩] :=
  (C10_sorted_by_Compare
    [⟨1, 5, 0, 0, 0, 0, 0⟩, ⟨3, 4, 0, 0, 0, 0, 0⟩, ⟨3, 1, 0, 0, 0, 0, 0⟩, ⟨9, 0, 0, 0, 0, 0, 0⟩]).2.2.1
    (by simp [Compare])

end AliTriggerScalers

namespace AliAlignObj

/-! ## Lookup tables: the loops of `InitVolPaths` -/

theorem writeEntry_eq (lut : Lut) (m : Nat) (s : String) (h : m + 1 ≤ lut.size) :
    writeEntry lut m s = some (writeBlock lut m 1 (fun _ => s)) := by
  unfold writeEntry writeBlock
  rw [if_pos (by omega)]
  congr 1
  ext i
  · rfl
  · dsimp only
    by_cases hi : i = m
    · rw [if_pos hi, if_pos (by omega)]
    · rw [if_neg hi, if_neg (by omega)]

theorem writeBlock_zero (lut : Lut) (m : Nat) (F : Nat → String) :
    writeBlock lut m 0 F = lut := by
  unfold writeBlock
  ext i
  · rfl
  · dsimp only
    rw [if_neg (by omega)]

/-- A loop whose body writes a block of `k` entries and advances `modnum` by `k`
writes `n * k` entries in `n` rounds. -/
theorem foldlM_blocks (k : Nat) (hk : 0 < k) (h : Nat → Nat → String)
    (body : Nat → Lut × Nat → Option (Lut × Nat))
    (hb : ∀ c lut m, m + k ≤ lut.size →
      body c (lut, m) = some (writeBlock lut m k (h c), m + k))
    (n : Nat) : ∀ (s : Nat) (lut : Lut) (m : Nat), m + n * k ≤ lut.size →
      (List.range' s n).foldlM (fun st c => body c st) (lut, m)
        = some (writeBlock lut m (n * k) (fun j => h (s + j / k) (j % k)), m + n * k) := by
  induction n with
  | zero =>
    intro s lut m _
    simp only [List.range'_zero, List.foldlM_nil, Nat.zero_mul, writeBlock_zero, Nat.add_zero]
    rfl
  | succ n ih =>
    intro s lut m hsz
    have hmul : (n + 1) * k = n * k + k := Nat.succ_mul n k
    rw [List.range'_succ, List.foldlM_cons, hb s lut m (by omega)]
    simp only [Option.bind_eq_bind, Option.some_bind]
    rw [ih (s + 1) (writeBlock lut m k (h s)) (m + k) (by show m + k + n * k ≤ lut.size; omega)]
    congr 1
    refine Prod.ext ?_ (by show m + k + n * k = m + (n + 1) * k; omega)
    show writeBlock (writeBlock lut m k (h s)) (m + k) (n * k)
        (fun j => h (s + 1 + j / k) (j % k))
      = writeBlock lut m ((n + 1) * k) (fun j => h (s + j / k) (j % k))
    unfold writeBlock
    ext i
    · rfl
    · dsimp only
      by_cases h1 : m + k ≤ i ∧ i < m + k + n * k
      · rw [if_pos h1, if_pos (by omega)]
        have e : i - m = (i - (m + k)) + k := by omega
        rw [e, Nat.add_div_right _ hk, Nat.add_mod_right]
        have e2 : s + 1 + (i - (m + k)) / k = s + ((i - (m + k)) / k).succ := by omega
        rw [e2]
      · rw [if_neg h1]
        by_cases h2 : m ≤ i ∧ i < m + k
        · rw [if_pos h2, if_pos (by omega), Nat.div_eq_of_lt (by omega), Nat.mod_eq_of_lt (by omega)]
          rfl
        · rw [if_neg h2, if_neg (by omega)]

/-- The innermost loop: `n` consecutive writes. -/
theorem loop1_eq (f : Nat → String) (n : Nat) (lut : Lut) (m : Nat) (hsz : m + n ≤ lut.size) :
    forUpTo n (fun c st => (writeEntry st.1 st.2 (f c)).map (fun l => (l, st.2 + 1))) (lut, m)
      = some (writeBlock lut m n (fun j => f (1 + j)), m + n) := by
  unfold forUpTo
  have h := foldlM_blocks 1 Nat.one_pos (fun c _ => f c)
    (fun c st => (writeEntry st.1 st.2 (f c)).map (fun l => (l, st.2 + 1)))
    (by
      intro c lut m hm
      show (writeEntry lut m (f c)).map (fun l => (l, m + 1)) = _
      rw [writeEntry_eq lut m (f c) hm]
      rfl)
    n 1 lut m (by omega)
  simp only [Nat.mul_one, Nat.div_one] at h
  exact h

/-- Two nested loops: `n1 * n2` consecutive writes. -/
theorem loop2_eq (f : Nat → Nat → String) (n1 n2 : Nat) (hn2 : 0 < n2) (lut : Lut) (m : Nat)
    (hsz : m + n1 * n2 ≤ lut.size) :
    forUpTo n1 (fun c1 st =>
        forUpTo n2 (fun c2 st =>
          (writeEntry st.1 st.2 (f c1 c2)).map (fun l => (l, st.2 + 1))) st) (lut, m)
      = some (writeBlock lut m (n1 * n2) (fun j => f (1 + j / n2) (1 + j % n2)),
          m + n1 * n2) := by
  unfold forUpTo
  exact foldlM_blocks n2 hn2 (fun c1 j => f c1 (1 + j))
    (fun c1 st => forUpTo n2 (fun c2 st =>
          (writeEntry st.1 st.2 (f c1 c2)).map (fun l => (l, st.2 + 1))) st)
    (fun c1 lut m hm => loop1_eq (f c1) n2 lut m hm)
    n1 1 lut m hsz

/-- Three nested loops: `n1 * (n2 * n3)` consecutive writes. -/
theorem loop3_eq (f : Nat → Nat → Nat → String) (n1 n2 n3 : Nat) (hn2 : 0 < n2) (hn3 : 0 < n3)
    (lut : Lut) (m : Nat) (hsz : m + n1 * (n2 * n3) ≤ lut.size) :
    forUpTo n1 (fun c1 st =>
        forUpTo n2 (fun c2 st =>
          forUpTo n3 (fun c3 st =>
            (writeEntry st.1 st.2 (f c1 c2 c3)).map (fun l => (l, st.2 + 1))) st) st) (lut, m)
      = some (writeBlock lut m (n1 * (n2 * n3))
          (fun j => f (1 + j / (n2 * n3)) (1 + j % (n2 * n3) / n3) (1 + j % (n2 * n3) % n3)),
          m + n1 * (n2 * n3)) := by
  unfold forUpTo
  exact foldlM_blocks (n2 * n3) (Nat.mul_pos hn2 hn3)
    (fun c1 j => f c1 (1 + j / n3) (1 + j % n3))
    (fun c1 st => forUpTo n2 (fun c2 st =>
          forUpTo n3 (fun c3 st =>
            (writeEntry st.1 st.2 (f c1 c2 c3)).map (fun l => (l, st.2 + 1))) st) st)
    (fun c1 lut m hm => loop2_eq (f c1) n2 n3 hn3 lut m hm)
    n1 1 lut m hsz

/-- The path written by a block with two loops for the counters `c1`, `c2`. -/
theorem fill2_eq (str0 str1 str2 : String) (n1 n2 : Nat) (hn2 : 0 < n2) (lut : Lut)
    (hsz : n1 * n2 ≤ lut.size) :
    fill2 str0 str1 str2 n1 n2 lut
      = some (writeBlock lut 0 (n1 * n2) (fun j =>
          str0 ++ toString (1 + j / n2) ++ str1 ++ toString (1 + j % n2) ++ str2),
          n1 * n2) := by
  have h := loop2_eq (fun c1 c2 => str0 ++ toString c1 ++ str1 ++ toString c2 ++ str2)
    n1 n2 hn2 lut 0 (by omega)
  rw [Nat.zero_add] at h
  exact h

/-- The path written by a block with three loops for the counters `c1`, `c2`, `c3`. -/
theorem fill3_eq (str0 str1 str2 str3 : String) (n1 n2 n3 : Nat) (hn2 : 0 < n2) (hn3 : 0 < n3)
    (lut : Lut) (hsz : n1 * (n2 * n3) ≤ lut.size) :
    fill3 str0 str1 str2 str3 n1 n2 n3 lut
      = some (writeBlock lut 0 (n1 * (n2 * n3)) (fun j =>
          str0 ++ toString (1 + j / (n2 * n3)) ++ str1 ++ toString (1 + j % (n2 * n3) / n3)
            ++ str2 ++ toString (1 + j % (n2 * n3) % n3) ++ str3),
          n1 * (n2 * n3)) := by
  have h := loop3_eq (fun c1 c2 c3 =>
      str0 ++ toString c1 ++ str1 ++ toString c2 ++ str2 ++ toString c3 ++ str3)
    n1 n2 n3 hn2 hn3 lut 0 (by omega)
  rw [Nat.zero_add] at h
  exact h

theorem initSPD1_eq : initSPD1 (newLut (fgLayerSize 0))
    = some (writeBlock (newLut (fgLayerSize 0)) 0 80
        (fun j => pathSPD1 (1 + j / 8) (1 + j % 8 / 4) (1 + j % 8 % 4)), 80) :=
  fill3_eq _ _ _ _ 10 2 4 (by decide) (by decide) _ (by decide)

theorem initSPD2_eq : initSPD2 (newLut (fgLayerSize 1))
    = some (writeBlock (newLut (fgLayerSize 1)) 0 160
        (fun j => pathSPD2 (1 + j / 16) (1 + j % 16 / 4) (1 + j % 16 % 4)), 160) :=
  fill3_eq _ _ _ _ 10 4 4 (by decide) (by decide) _ (by decide)

theorem initSDD1_eq : initSDD1 (newLut (fgLayerSize 2))
    = some (writeBlock (newLut (fgLayerSize 2)) 0 84
        (fun j => pathSDD1 (1 + j / 6) (1 + j % 6)), 84) :=
  fill2_eq _ _ _ 14 6 (by decide) _ (by decide)

theorem initSDD2_eq : initSDD2 (newLut (fgLayerSize 3))
    = some (writeBlock (newLut (fgLayerSize 3)) 0 176
        (fun j => pathSDD2 (1 + j / 8) (1 + j % 8)), 176) :=
  fill2_eq _ _ _ 22 8 (by decide) _ (by decide)

theorem initSSD1_eq : initSSD1 (newLut (fgLayerSize 4))
    = some (writeBlock (newLut (fgLayerSize 4)) 0 748
        (fun j => pathSSD1 (1 + j / 22) (1 + j % 22)), 748) :=
  fill2_eq _ _ _ 34 22 (by decide) _ (by decide)

theorem initSSD2_eq : initSSD2 (newLut (fgLayerSize 5))
    = some (writeBlock (newLut (fgLayerSize 5)) 0 950
        (fun j => pathSSD2 (1 + j / 25) (1 + j % 25)), 950) :=
  fill2_eq _ _ _ 38 25 (by decide) _ (by decide)

theorem writeBlock_slot (lut : Lut) (k : Nat) (F : Nat → String) (i : Nat) (h : i < k) :
    (writeBlock lut 0 k F).slot i = some (F i) := by
  unfold writeBlock
  dsimp only
  rw [if_pos (by omega)]
  rfl

/-- What a first call of `InitVolPaths` leaves in `fgVolPath`: no write is out of
range, the six ITS arrays are filled by their blocks and the other thirteen
arrays are allocated and not written. -/
theorem InitVolPaths_fresh (fg : Fin 19 → Option Lut) (h : fg 0 = none) :
    ∃ t : Fin 19 → Lut, InitVolPaths fg = some (fun i => some (t i)) ∧
      t 0 = writeBlock (newLut (fgLayerSize 0)) 0 80
        (fun j => pathSPD1 (1 + j / 8) (1 + j % 8 / 4) (1 + j % 8 % 4)) ∧
      t 1 = writeBlock (newLut (fgLayerSize 1)) 0 160
        (fun j => pathSPD2 (1 + j / 16) (1 + j % 16 / 4) (1 + j % 16 % 4)) ∧
      t 2 = writeBlock (newLut (fgLayerSize 2)) 0 84
        (fun j => pathSDD1 (1 + j / 6) (1 + j % 6)) ∧
      t 3 = writeBlock (newLut (fgLayerSize 3)) 0 176
        (fun j => pathSDD2 (1 + j / 8) (1 + j % 8)) ∧
      t 4 = writeBlock (newLut (fgLayerSize 4)) 0 748
        (fun j => pathSSD1 (1 + j / 22) (1 + j % 22)) ∧
      t 5 = writeBlock (newLut (fgLayerSize 5)) 0 950
        (fun j => pathSSD2 (1 + j / 25) (1 + j % 25)) ∧
      (∀ i : Fin 19, 6 ≤ i.val → t i = newLut (fgLayerSize i)) := by
  unfold InitVolPaths
  rw [h]
  simp only [Option.isSome_none, Bool.false_eq_true, if_false]
  rw [initSPD1_eq, initSPD2_eq, initSDD1_eq, initSDD2_eq, initSSD1_eq, initSSD2_eq]
  simp only [Option.some_bind]
  refine ⟨_, rfl, ?_, ?_, ?_, ?_, ?_, ?_, ?_⟩
  · simp [Function.update]
  · simp [Function.update]
  · simp [Function.update]
  · simp [Function.update]
  · simp [Function.update]
  · simp [Function.update]
  · intro i hi
    have h0 : i ≠ 0 := by intro e; rw [e] at hi; exact absurd hi (by decide)
    have h1 : i ≠ 1 := by intro e; rw [e] at hi; exact absurd hi (by decide)
    have h2 : i ≠ 2 := by intro e; rw [e] at hi; exact absurd hi (by decide)
    have h3 : i ≠ 3 := by intro e; rw [e] at hi; exact absurd hi (by decide)
    have h4 : i ≠ 4 := by intro e; rw [e] at hi; exact absurd hi (by decide)
    have h5 : i ≠ 5 := by intro e; rw [e] at hi; exact absurd hi (by decide)
    simp [Function.update, h0, h1, h2, h3, h4, h5]

/-! ## Lookup tables: distinct counters give distinct paths -/

/-- C12: the lookup tables are initialised once: a first call of `InitVolPaths`
succeeds, and in the state it leaves a further call, also the one made by the
default constructor of another object, returns that state unchanged; in any
state whose first array is allocated the call changes nothing. -/
theorem C12_InitVolPaths_once (fg : Fin 19 → Option Lut) :
    (∃ fg' : Fin 19 → Option Lut, InitVolPaths fg = some fg' ∧
      InitVolPaths fg' = some fg' ∧
      defaultCtor fg' = some (⟨"", 0⟩, fg')) ∧
    ((fg 0).isSome = true → InitVolPaths fg = some fg) := by
  have hsome : ∀ g : Fin 19 → Option Lut, (g 0).isSome = true → InitVolPaths g = some g := by
    intro g hg
    unfold InitVolPaths
    rw [if_pos hg]
  refine ⟨?_, hsome fg⟩
  cases h0 : fg 0 with
  | none =>
    obtain ⟨t, ht, _⟩ := InitVolPaths_fresh fg h0
    have h2 : InitVolPaths (fun i => some (t i)) = some (fun i => some (t i)) := hsome _ rfl
    refine ⟨fun i => some (t i), ht, h2, ?_⟩
    unfold defaultCtor
    rw [h2]
    rfl
  | some l =>
    have h1 : InitVolPaths fg = some fg := hsome fg (by rw [h0]; rfl)
    refine ⟨fg, h1, h1, ?_⟩
    unfold defaultCtor
    rw [h1]
    rfl

theorem C12_InitVolPaths_once_witness :
    InitVolPaths (fun _ => some (newLut 80)) = some (fun _ => some (newLut 80)) :=
  (C12_InitVolPaths_once (fun _ => some (newLut 80))).2 rfl

/-- C16: `InitVolPaths` never writes outside the arrays it allocates: each of the
six ITS blocks ends with `modnum` equal to the `fgLayerSize` entry of its layer
(80, 160, 84, 176, 748, 950), the call does not fail on a write, and afterwards
each of these arrays has its allocated size and every slot of it is filled. -/
theorem C16_InitVolPaths_in_bounds (fg : Fin 19 → Option Lut) (h : fg 0 = none) :
    (fgLayerSize 0 = 80 ∧ fgLayerSize 1 = 160 ∧ fgLayerSize 2 = 84 ∧
      fgLayerSize 3 = 176 ∧ fgLayerSize 4 = 748 ∧ fgLayerSize 5 = 950) ∧
    ((initSPD1 (newLut (fgLayerSize 0))).map Prod.snd = some (fgLayerSize 0) ∧
      (initSPD2 (newLut (fgLayerSize 1))).map Prod.snd = some (fgLayerSize 1) ∧
      (initSDD1 (newLut (fgLayerSize 2))).map Prod.snd = some (fgLayerSize 2) ∧
      (initSDD2 (newLut (fgLayerSize 3))).map Prod.snd = some (fgLayerSize 3) ∧
      (initSSD1 (newLut (fgLayerSize 4))).map Prod.snd = some (fgLayerSize 4) ∧
      (initSSD2 (newLut (fgLayerSize 5))).map Prod.snd = some (fgLayerSize 5)) ∧
    (∃ t : Fin 19 → Lut, InitVolPaths fg = some (fun i => some (t i)) ∧
      ∀ L : Fin 19, L.val < 6 → (t L).size = fgLayerSize L ∧
        (∀ i : Nat, i < fgLayerSize L → ((t L).slot i).isSome = true) ∧
        (∀ i : Nat, fgLayerSize L ≤ i → (t L).slot i = none)) := by
  refine ⟨⟨rfl, rfl, rfl, rfl, rfl, rfl⟩, ⟨?_, ?_, ?_, ?_, ?_, ?_⟩, ?_⟩
  · rw [initSPD1_eq]; rfl
  · rw [initSPD2_eq]; rfl
  · rw [initSDD1_eq]; rfl
  · rw [initSDD2_eq]; rfl
  · rw [initSSD1_eq]; rfl
  · rw [initSSD2_eq]; rfl
  · obtain ⟨t, ht, t0, t1, t2, t3, t4, t5, _⟩ := InitVolPaths_fresh fg h
    have key : ∀ (n : Nat) (F : Nat → String) (lut : Lut), lut = writeBlock (newLut n) 0 n F →
        lut.size = n ∧ (∀ i : Nat, i < n → (lut.slot i).isSome = true) ∧
        (∀ i : Nat, n ≤ i → lut.slot i = none) := by
      intro n F lut e
      subst e
      refine ⟨rfl, ?_, ?_⟩
      · intro i hi
        rw [writeBlock_slot _ _ _ _ hi]
        rfl
      · intro i hi
        unfold writeBlock newLut
        dsimp only
        rw [if_neg (by omega)]
    refine ⟨t, ht, ?_⟩
    intro L hL
    obtain ⟨l, hl⟩ := L
    have hL' : l < 6 := hL
    interval_cases l
    · exact key 80 _ _ t0
    · exact key 160 _ _ t1
    · exact key 84 _ _ t2
    · exact key 176 _ _ t3
    · exact key 748 _ _ t4
    · exact key 950 _ _ t5

theorem C16_InitVolPaths_in_bounds_witness :
    ∃ t : Fin 19 → Lut, InitVolPaths fgVolPathInitial = some (fun i => some (t i)) ∧
      ∀ L : Fin 19, L.val < 6 → (t L).size = fgLayerSize L ∧
        (∀ i : Nat, i < fgLayerSize L → ((t L).slot i).isSome = true) ∧
        (∀ i : Nat, fgLayerSize L ≤ i → (t L).slot i = none) :=
  (C16_InitVolPaths_in_bounds fgVolPathInitial rfl).2.2

/-- A block whose array is one slot too small fails on its last write. -/
theorem initSPD1_too_small : (initSPD1 (newLut 79)).isNone = true := by decide

/-- C18: every 16-bit identifier is the packing of its own decoding, and
`LayerToVolUID` restricted to layers in [0,31] and modules in [0,2047] is a
bijection onto the 16-bit values. -/
theorem C18_unpack_pack_roundtrip :
    (∀ uid : Nat, uid < 65536 →
      LayerToVolUID (VolUIDToLayerModId uid).1 (VolUIDToLayerModId uid).2 = uid) ∧
    Set.BijOn (fun q : Int × Int => LayerToVolUID q.1 q.2)
      {q : Int × Int | 0 ≤ q.1 ∧ q.1 ≤ 31 ∧ 0 ≤ q.2 ∧ q.2 ≤ 2047}
      {uid : Nat | uid < 65536} := by
  have hround : ∀ uid : Nat, uid < 65536 →
      LayerToVolUID (VolUIDToLayerModId uid).1 (VolUIDToLayerModId uid).2 = uid := by
    intro uid h
    rw [VolUIDToLayerModId_eq]
    dsimp only
    rw [LayerToVolUID_in_range _ _ (by omega) (by omega)]
    omega
  refine ⟨hround, ?_, ?_, ?_⟩
  · intro q _
    exact UShort_t_lt_of_pack q.1 q.2
  · intro q hq q' hq' e
    obtain ⟨a, b⟩ := q
    obtain ⟨a', b'⟩ := q'
    obtain ⟨h1, h2, h3, h4⟩ := hq
    obtain ⟨h1', h2', h3', h4'⟩ := hq'
    dsimp only at h1 h2 h3 h4 h1' h2' h3' h4' e
    lift a to ℕ using h1
    lift b to ℕ using h3
    lift a' to ℕ using h1'
    lift b' to ℕ using h3'
    rw [LayerToVolUID_in_range a b (by omega) (by omega),
      LayerToVolUID_in_range a' b' (by omega) (by omega)] at e
    have ea : a = a' := by omega
    have eb : b = b' := by omega
    rw [ea, eb]
  · intro uid huid
    refine ⟨VolUIDToLayerModId uid, ?_, hround uid huid⟩
    rw [VolUIDToLayerModId_eq]
    have h : uid < 65536 := huid
    refine ⟨?_, ?_, ?_, ?_⟩ <;> dsimp only <;> omega

theorem C18_unpack_pack_roundtrip_witness :
    LayerToVolUID (VolUIDToLayerModId 54321).1 (VolUIDToLayerModId 54321).2 = 54321 :=
  C18_unpack_pack_roundtrip.1 54321 (by decide)

/-- C19: when `MatrixToAngles` fails it has written nothing: for a matrix with
`rot[0] < 1e-7` or `rot[8] < 1e-7` the call returns false and the three output
angles are what they were before the call. -/
theorem C19_MatrixToAngles_failure_frame {α : Type} [Mul α] [Neg α] [LT α]
    [DecidableRel ((· < ·) : α → α → Prop)] [OfScientific α]
    (tm : TMathOps α) (rot : Fin 9 → α) (angles : Fin 3 → α)
    (h : rot 0 < 1e-7 ∨ rot 8 < 1e-7) :
    MatrixToAngles tm rot angles = (false, angles) := by
  unfold MatrixToAngles
  rcases h with h | h
  · simp [h]
  · simp [h]

theorem C19_MatrixToAngles_failure_frame_witness :
    MatrixToAngles realTMath ![0, 0, 1, 0, 1, 0, -1, 0, 0] ![10, 20, 30]
      = (false, ![10, 20, 30]) :=
  C19_MatrixToAngles_failure_frame realTMath ![0, 0, 1, 0, 1, 0, -1, 0, 0] ![10, 20, 30]
    (Or.inl (by simp; norm_num))

end AliAlignObj

namespace AliPMDcell

/-- C13: the cell built by the five-argument constructor returns exactly the
constructor arguments from its five getters, the default-constructed cell
returns 0 from all five, a copy returns what its source returns, and an
assignment makes the five getters return the values of the source. -/
theorem C13_getters_return_constructor_values {β : Type} [Zero β]
    (trnumber smnumber xpos ypos : Int) (edep : β) (c d : AliPMDcell β) :
    (GetTrackNumber (ctor5 trnumber smnumber xpos ypos edep) = trnumber ∧
      GetSMNumber (ctor5 trnumber smnumber xpos ypos edep) = smnumber ∧
      GetX (ctor5 trnumber smnumber xpos ypos edep) = xpos ∧
      GetY (ctor5 trnumber smnumber xpos ypos edep) = ypos ∧
      GetEdep (ctor5 trnumber smnumber xpos ypos edep) = edep) ∧
    (GetTrackNumber (ctor0 : AliPMDcell β) = 0 ∧ GetSMNumber (ctor0 : AliPMDcell β) = 0 ∧
      GetX (ctor0 : AliPMDcell β) = 0 ∧ GetY (ctor0 : AliPMDcell β) = 0 ∧
      GetEdep (ctor0 : AliPMDcell β) = 0) ∧
    copyCtor c = c ∧ assign d c = c :=
  ⟨⟨rfl, rfl, rfl, rfl, rfl⟩, ⟨rfl, rfl, rfl, rfl, rfl⟩, rfl, rfl⟩

end AliPMDcell

namespace AliAlignObj

/-! ## Rotations -/

theorem Rx_orth {α : Type} [CommRing α] (c s : α) (h : s * s + c * c = 1) :
    Rx c s * (Rx c s).transpose = 1 ∧ (Rx c s).det = 1 := by
  constructor
  · ext i j
    fin_cases i <;> fin_cases j <;>
      simp only [Matrix.mul_apply, Fin.sum_univ_three, Matrix.transpose_apply] <;>
      simp [Rx, Matrix.one_apply, Matrix.vecHead, Matrix.vecTail] <;>
      first
        | linear_combination h
        | linear_combination -h
        | ring
  · rw [Matrix.det_fin_three]
    simp [Rx]
    linear_combination h

theorem Ry_orth {α : Type} [CommRing α] (c s : α) (h : s * s + c * c = 1) :
    Ry c s * (Ry c s).transpose = 1 ∧ (Ry c s).det = 1 := by
  constructor
  · ext i j
    fin_cases i <;> fin_cases j <;>
      simp only [Matrix.mul_apply, Fin.sum_univ_three, Matrix.transpose_apply] <;>
      simp [Ry, Matrix.one_apply, Matrix.vecHead, Matrix.vecTail] <;>
      first
        | linear_combination h
        | linear_combination -h
        | ring
  · rw [Matrix.det_fin_three]
    simp [Ry]
    linear_combination h

theorem Rz_orth {α : Type} [CommRing α] (c s : α) (h : s * s + c * c = 1) :
    Rz c s * (Rz c s).transpose = 1 ∧ (Rz c s).det = 1 := by
  constructor
  · ext i j
    fin_cases i <;> fin_cases j <;>
      simp only [Matrix.mul_apply, Fin.sum_univ_three, Matrix.transpose_apply] <;>
      simp [Rz, Matrix.one_apply, Matrix.vecHead, Matrix.vecTail] <;>
      first
        | linear_combination h
        | linear_combination -h
        | ring
  · rw [Matrix.det_fin_three]
    simp [Rz]
    linear_combination h

theorem toMatrix_AnglesToMatrix {α : Type} [CommRing α]
    (tm : TMathOps α) (angles : Fin 3 → α) :
    toMatrix (AnglesToMatrix tm angles)
      = Rx (tm.Cos (tm.DegToRad * angles 0)) (tm.Sin (tm.DegToRad * angles 0))
        * Ry (tm.Cos (tm.DegToRad * angles 1)) (tm.Sin (tm.DegToRad * angles 1))
        * Rz (tm.Cos (tm.DegToRad * angles 2)) (tm.Sin (tm.DegToRad * angles 2)) := by
  ext i j
  fin_cases i <;> fin_cases j <;>
    simp [toMatrix, Rx, Ry, Rz, Matrix.mul_apply, Fin.sum_univ_three,
      AnglesToMatrix_0, AnglesToMatrix_1, AnglesToMatrix_2, AnglesToMatrix_3,
      AnglesToMatrix_4, AnglesToMatrix_5, AnglesToMatrix_6, AnglesToMatrix_7,
      AnglesToMatrix_8] <;>
    ring

theorem realTMath_sin_cos (x : ℝ) :
    realTMath.Sin x * realTMath.Sin x + realTMath.Cos x * realTMath.Cos x = 1 := by
  show Real.sin x * Real.sin x + Real.cos x * Real.cos x = 1
  have h := Real.sin_sq_add_cos_sq x
  rw [sq, sq] at h
  exact h

/-- C15: for every triple of angles the matrix of `AnglesToMatrix` is a proper
rotation over exact real arithmetic: its rows are orthonormal (`R * Rᵀ = 1`),
its determinant is 1, and for the angles (0, 0, 0) it is the identity. -/
theorem C15_AnglesToMatrix_is_rotation (angles : Fin 3 → ℝ) :
    toMatrix (AnglesToMatrix realTMath angles)
        * (toMatrix (AnglesToMatrix realTMath angles)).transpose = 1 ∧
      (toMatrix (AnglesToMatrix realTMath angles)).det = 1 ∧
      toMatrix (AnglesToMatrix realTMath ![0, 0, 0]) = 1 := by
  obtain ⟨hA, dA⟩ := Rx_orth _ _ (realTMath_sin_cos (realTMath.DegToRad * angles 0))
  obtain ⟨hB, dB⟩ := Ry_orth _ _ (realTMath_sin_cos (realTMath.DegToRad * angles 1))
  obtain ⟨hC, dC⟩ := Rz_orth _ _ (realTMath_sin_cos (realTMath.DegToRad * angles 2))
  refine ⟨?_, ?_, ?_⟩
  · rw [toMatrix_AnglesToMatrix]
    simp only [Matrix.transpose_mul, Matrix.mul_assoc]
    rw [← Matrix.mul_assoc (Rz _ _), hC, Matrix.one_mul, ← Matrix.mul_assoc (Ry _ _), hB,
      Matrix.one_mul, hA]
  · rw [toMatrix_AnglesToMatrix, Matrix.det_mul, Matrix.det_mul, dA, dB, dC]
    norm_num
  · ext i j
    fin_cases i <;> fin_cases j <;>
      simp [toMatrix, AnglesToMatrix_0, AnglesToMatrix_1, AnglesToMatrix_2, AnglesToMatrix_3,
        AnglesToMatrix_4, AnglesToMatrix_5, AnglesToMatrix_6, AnglesToMatrix_7,
        AnglesToMatrix_8, realTMath, Matrix.one_apply, Matrix.vecHead, Matrix.vecTail]

theorem rot_facts (rot : Fin 9 → ℝ)
    (horth : toMatrix rot * (toMatrix rot).transpose = 1) (hdet : (toMatrix rot).det = 1) :
    rot 0 * rot 0 + rot 1 * rot 1 + rot 2 * rot 2 = 1 ∧
    rot 2 * rot 2 + rot 5 * rot 5 + rot 8 * rot 8 = 1 ∧
    rot 0 * rot 3 + rot 1 * rot 4 + rot 2 * rot 5 = 0 ∧
    rot 0 * rot 6 + rot 1 * rot 7 + rot 2 * rot 8 = 0 ∧
    rot 8 = rot 0 * rot 4 - rot 1 * rot 3 ∧
    rot 5 = rot 1 * rot 6 - rot 0 * rot 7 := by
  have hT : (toMatrix rot).transpose * toMatrix rot = 1 := Matrix.mul_eq_one_comm.mp horth
  have hadj : (toMatrix rot).transpose = (toMatrix rot).adjugate := by
    have h2 : toMatrix rot * (toMatrix rot).adjugate = 1 := by
      rw [Matrix.mul_adjugate, hdet, one_smul]
    calc (toMatrix rot).transpose
        = (toMatrix rot).transpose * (toMatrix rot * (toMatrix rot).adjugate) := by
          rw [h2, Matrix.mul_one]
      _ = (toMatrix rot).adjugate := by rw [← Matrix.mul_assoc, hT, Matrix.one_mul]
  have e00 := congrFun (congrFun horth 0) 0
  have e01 := congrFun (congrFun horth 0) 1
  have e02 := congrFun (congrFun horth 0) 2
  have c22 := congrFun (congrFun hT 2) 2
  have a22 := congrFun (congrFun hadj 2) 2
  have a21 := congrFun (congrFun hadj 2) 1
  rw [Matrix.adjugate_fin_three] at a22 a21
  simp only [Matrix.mul_apply, Fin.sum_univ_three, Matrix.transpose_apply] at e00 e01 e02 c22
  simp [toMatrix, Matrix.vecHead, Matrix.vecTail] at e00 e01 e02 c22 a22 a21
  refine ⟨?_, ?_, ?_, ?_, ?_, ?_⟩
  · linarith
  · linarith
  · linarith
  · linarith
  · linarith
  · linarith

theorem degrad_raddeg (x : ℝ) : Real.pi / 180 * (180 / Real.pi * x) = x := by
  have hpi : Real.pi ≠ 0 := Real.pi_ne_zero
  field_simp
  ring

theorem realTMath_DegToRad : realTMath.DegToRad = Real.pi / 180 := rfl

theorem realTMath_Sin (x : ℝ) : realTMath.Sin x = Real.sin x := rfl

theorem realTMath_Cos (x : ℝ) : realTMath.Cos x = Real.cos x := rfl

/-- Cosine and sine of the argument of a point at distance `c > 0` from the origin. -/
theorem cos_sin_arg (x y c : ℝ) (hc : 0 < c) (h : x * x + y * y = c * c) :
    Real.cos (Complex.arg ⟨x, y⟩) = x * c⁻¹ ∧ Real.sin (Complex.arg ⟨x, y⟩) = y * c⁻¹ := by
  have habs : Complex.abs ⟨x, y⟩ = c := by
    rw [Complex.abs_apply, Complex.normSq_mk, h]
    exact Real.sqrt_mul_self hc.le
  have hz : (⟨x, y⟩ : ℂ) ≠ 0 := by
    intro e
    rw [e, map_zero] at habs
    exact absurd habs.symm (ne_of_gt hc)
  constructor
  · rw [Complex.cos_arg hz, habs, div_eq_mul_inv]
  · rw [Complex.sin_arg, habs, div_eq_mul_inv]

/-- C17: over exact real arithmetic, for every proper rotation matrix `rot`
(orthogonal, determinant 1) with `rot[0] >= 1e-7` and `rot[8] >= 1e-7`,
`MatrixToAngles` succeeds and `AnglesToMatrix` applied to the angles it returns
reproduces `rot`. -/
theorem C17_matrix_angle_matrix_roundtrip (rot : Fin 9 → ℝ) (out : Fin 3 → ℝ)
    (horth : toMatrix rot * (toMatrix rot).transpose = 1)
    (hdet : (toMatrix rot).det = 1)
    (h0 : (1e-7 : ℝ) ≤ rot 0) (h8 : (1e-7 : ℝ) ≤ rot 8) :
    (MatrixToAngles realTMath rot out).1 = true ∧
      AnglesToMatrix realTMath (MatrixToAngles realTMath rot out).2 = rot := by
  obtain ⟨r0, c2, o01, o02, cof8, cof5⟩ := rot_facts rot horth hdet
  have hpos : (0 : ℝ) < 1e-7 := by norm_num
  have hpos0 : 0 < rot 0 := lt_of_lt_of_le hpos h0
  have hle1 : rot 2 ≤ 1 := by nlinarith [mul_self_nonneg (rot 0), mul_self_nonneg (rot 1)]
  have hge1 : -1 ≤ rot 2 := by nlinarith [mul_self_nonneg (rot 0), mul_self_nonneg (rot 1)]
  have hsin : Real.sin (Real.arcsin (rot 2)) = rot 2 := Real.sin_arcsin hge1 hle1
  have hc0 : 0 ≤ Real.cos (Real.arcsin (rot 2)) := Real.cos_arcsin_nonneg _
  have hsc := Real.sin_sq_add_cos_sq (Real.arcsin (rot 2))
  rw [hsin] at hsc
  generalize hcdef : Real.cos (Real.arcsin (rot 2)) = c at hc0 hsc
  have hcc : c * c = rot 0 * rot 0 + rot 1 * rot 1 := by linear_combination hsc - r0
  have hc : 0 < c := by
    rcases hc0.lt_or_eq with h | h
    · exact h
    · exfalso
      rw [← h] at hcc
      nlinarith [mul_pos hpos0 hpos0, mul_self_nonneg (rot 1)]
  have hu : c * c⁻¹ = 1 := mul_inv_cancel₀ (ne_of_gt hc)
  obtain ⟨hcphi, hsphi⟩ := cos_sin_arg (rot 0) (-rot 1) c hc (by linear_combination r0 - hsc)
  obtain ⟨hcpsi, hspsi⟩ := cos_sin_arg (rot 8) (-rot 5) c hc (by linear_combination c2 - hsc)
  have hres : MatrixToAngles realTMath rot out
      = (true, ![180 / Real.pi * Complex.arg ⟨rot 8, -rot 5⟩,
          180 / Real.pi * Real.arcsin (rot 2),
          180 / Real.pi * Complex.arg ⟨rot 0, -rot 1⟩]) := by
    unfold MatrixToAngles
    simp only [not_lt.2 h0, not_lt.2 h8, decide_False, Bool.or_self, Bool.false_eq_true, if_false]
    refine Prod.ext rfl ?_
    funext i
    fin_cases i <;> simp [realTMath_RadToDeg, realTMath_ATan2, realTMath_ASin]
  rw [hres]
  refine ⟨rfl, ?_⟩
  funext k
  generalize c⁻¹ = u at hu hcphi hsphi hcpsi hspsi
  fin_cases k
  · show AnglesToMatrix realTMath _ 0 = rot 0
    rw [AnglesToMatrix_0]
    simp only [realTMath_DegToRad, realTMath_Sin, realTMath_Cos, Matrix.cons_val_zero,
      Matrix.cons_val_one, Matrix.head_cons, Matrix.cons_val_two, Matrix.tail_cons,
      degrad_raddeg, hcphi, hsphi, hcpsi, hspsi, hsin, hcdef]
    linear_combination rot 0 * hu
  · show AnglesToMatrix realTMath _ 1 = rot 1
    rw [AnglesToMatrix_1]
    simp only [realTMath_DegToRad, realTMath_Sin, realTMath_Cos, Matrix.cons_val_zero,
      Matrix.cons_val_one, Matrix.head_cons, Matrix.cons_val_two, Matrix.tail_cons,
      degrad_raddeg, hcphi, hsphi, hcpsi, hspsi, hsin, hcdef]
    linear_combination rot 1 * hu
  · show AnglesToMatrix realTMath _ 2 = rot 2
    rw [AnglesToMatrix_2]
    simp only [realTMath_DegToRad, realTMath_Sin, realTMath_Cos, Matrix.cons_val_zero,
      Matrix.cons_val_one, Matrix.head_cons, Matrix.cons_val_two, Matrix.tail_cons,
      degrad_raddeg, hcphi, hsphi, hcpsi, hspsi, hsin, hcdef]
  · show AnglesToMatrix realTMath _ 3 = rot 3
    rw [AnglesToMatrix_3]
    simp only [realTMath_DegToRad, realTMath_Sin, realTMath_Cos, Matrix.cons_val_zero,
      Matrix.cons_val_one, Matrix.head_cons, Matrix.cons_val_two, Matrix.tail_cons,
      degrad_raddeg, hcphi, hsphi, hcpsi, hspsi, hsin, hcdef]
    linear_combination (-(u ^ 2) * rot 0) * o01 - (u ^ 2 * rot 1) * cof8 - (u ^ 2 * rot 3) * hcc + (rot 3 * (c * u + 1)) * hu
  · show AnglesToMatrix realTMath _ 4 = rot 4
    rw [AnglesToMatrix_4]
    simp only [realTMath_DegToRad, realTMath_Sin, realTMath_Cos, Matrix.cons_val_zero,
      Matrix.cons_val_one, Matrix.head_cons, Matrix.cons_val_two, Matrix.tail_cons,
      degrad_raddeg, hcphi, hsphi, hcpsi, hspsi, hsin, hcdef]
    linear_combination (-(u ^ 2) * rot 1) * o01 + (u ^ 2 * rot 0) * cof8 - (u ^ 2 * rot 4) * hcc + (rot 4 * (c * u + 1)) * hu
  · show AnglesToMatrix realTMath _ 5 = rot 5
    rw [AnglesToMatrix_5]
    simp only [realTMath_DegToRad, realTMath_Sin, realTMath_Cos, Matrix.cons_val_zero,
      Matrix.cons_val_one, Matrix.head_cons, Matrix.cons_val_two, Matrix.tail_cons,
      degrad_raddeg, hcphi, hsphi, hcpsi, hspsi, hsin, hcdef]
    linear_combination rot 5 * hu
  · show AnglesToMatrix realTMath _ 6 = rot 6
    rw [AnglesToMatrix_6]
    simp only [realTMath_DegToRad, realTMath_Sin, realTMath_Cos, Matrix.cons_val_zero,
      Matrix.cons_val_one, Matrix.head_cons, Matrix.cons_val_two, Matrix.tail_cons,
      degrad_raddeg, hcphi, hsphi, hcpsi, hspsi, hsin, hcdef]
    linear_combination (-(u ^ 2) * rot 0) * o02 + (u ^ 2 * rot 1) * cof5 - (u ^ 2 * rot 6) * hcc + (rot 6 * (c * u + 1)) * hu
  · show AnglesToMatrix realTMath _ 7 = rot 7
    rw [AnglesToMatrix_7]
    simp only [realTMath_DegToRad, realTMath_Sin, realTMath_Cos, Matrix.cons_val_zero,
      Matrix.cons_val_one, Matrix.head_cons, Matrix.cons_val_two, Matrix.tail_cons,
      degrad_raddeg, hcphi, hsphi, hcpsi, hspsi, hsin, hcdef]
    linear_combination (-(u ^ 2) * rot 1) * o02 - (u ^ 2 * rot 0) * cof5 - (u ^ 2 * rot 7) * hcc + (rot 7 * (c * u + 1)) * hu
  · show AnglesToMatrix realTMath _ 8 = rot 8
    rw [AnglesToMatrix_8]
    simp only [realTMath_DegToRad, realTMath_Sin, realTMath_Cos, Matrix.cons_val_zero,
      Matrix.cons_val_one, Matrix.head_cons, Matrix.cons_val_two, Matrix.tail_cons,
      degrad_raddeg, hcphi, hsphi, hcpsi, hspsi, hsin, hcdef]
    linear_combination rot 8 * hu

theorem C17_matrix_angle_matrix_roundtrip_witness :
    (MatrixToAngles realTMath ![3 / 5, -4 / 5, 0, 4 / 5, 3 / 5, 0, 0, 0, 1] ![0, 0, 0]).1 = true ∧
      AnglesToMatrix realTMath
          (MatrixToAngles realTMath ![3 / 5, -4 / 5, 0, 4 / 5, 3 / 5, 0, 0, 0, 1] ![0, 0, 0]).2
        = ![3 / 5, -4 / 5, 0, 4 / 5, 3 / 5, 0, 0, 0, 1] := by
  have hm : toMatrix (![3 / 5, -4 / 5, 0, 4 / 5, 3 / 5, 0, 0, 0, 1] : Fin 9 → ℝ)
      = !![3 / 5, -4 / 5, 0; 4 / 5, 3 / 5, 0; 0, 0, 1] := rfl
  refine C17_matrix_angle_matrix_roundtrip ![3 / 5, -4 / 5, 0, 4 / 5, 3 / 5, 0, 0, 0, 1]
    ![0, 0, 0] ?_ ?_ ?_ ?_
  · rw [hm]
    ext i j
    fin_cases i <;> fin_cases j <;>
      simp only [Matrix.mul_apply, Fin.sum_univ_three, Matrix.transpose_apply] <;>
      simp [Matrix.one_apply, Matrix.vecHead, Matrix.vecTail] <;>
      norm_num
  · rw [hm, Matrix.det_fin_three]
    simp [Matrix.vecHead, Matrix.vecTail]
    norm_num
  · show (1e-7 : ℝ) ≤ 3 / 5
    norm_num
  · show (1e-7 : ℝ) ≤ 1
    norm_num

end AliAlignObj
